import Mathlib

/-!
Verification of the basic-docking pipeline (`src/jobs/basic_docking.py`).

The Python module is shallowly embedded: every external effect (shell
commands, the filesystem, the remote-storage gateway) is an oracle packed
into a `World`; the process-wide mutable state the code actually touches
(current working directory) together with an observer log of the shell
commands issued (tagged with the pipeline stage that issued them) forms
`St`.  Each Python function becomes a Lean function
`World → args → St → Except PyError α × St`; a Python exception is the
`Except.error` case, and Python's `try`/`except` becomes a `match` on it.
-/

set_option maxRecDepth 100000

deriving instance DecidableEq for Except

namespace BasicDocking

/-- Pipeline stage issuing a shell command (observer annotation of the
call sites of `run_command`). -/
inductive Tag where
  | ligand
  | receptor
  | docking
  | poseExport
  deriving DecidableEq, Repr

/-- `subprocess.CompletedProcess[str]`: return code and captured streams. -/
structure Completed where
  returncode : Nat
  stdout : String
  stderr : String
  deriving DecidableEq, Repr

/-- The Python exceptions the module raises or propagates. -/
inductive PyError where
  | calledProcessError (cmd : String) (stderr : String) (returncode : Nat)
  | runtimeError (msg : String)
  | osError (path : String)
  deriving DecidableEq, Repr

/-- `str(e)` for the modelled exceptions. -/
def PyError.msg : PyError → String
  | .calledProcessError cmd _ code =>
      "Command " ++ cmd ++ " returned non-zero exit status " ++ toString code
  | .runtimeError m => m
  | .osError p => "OSError: " ++ p

/-- Behaviour of everything outside the module: the shell (exit code and
captured streams per command text), the filesystem reads, the
remote-storage gateway (`download_from_gcs`, `upload_to_gcs`), path
existence, the `/tmp` listing and entry kinds used by `clear_tmp`, and the
process environment. -/
structure World where
  exitCode : String → Nat
  stdoutOf : String → String
  stderrOf : String → String
  readFile : String → Option String
  download : String → String
  uploadOk : String → String → String → Bool
  pathExists : String → Bool
  listTmp : List String
  isFile : String → Bool
  isLink : String → Bool
  isDir : String → Bool
  removeOk : String → Bool
  environ : List (String × String)

/-- Process-wide state threaded through the pipeline: the current working
directory (`os.getcwd`/`os.chdir`) and the log of shell commands issued so
far, each tagged with its pipeline stage. -/
structure St where
  cwd : String
  log : List (Tag × String)
  deriving DecidableEq, Repr

/-- Characters stripped by Python's `str.strip()`. -/
def isPySpace (c : Char) : Bool :=
  c = ' ' || c = '\t' || c = '\n' || c = '\r' || c = '\x0b' || c = '\x0c'

/-- Python's `str.strip()`: remove whitespace from both ends. -/
def pyStrip (s : String) : String :=
  ⟨((s.data.dropWhile isPySpace).reverse.dropWhile isPySpace).reverse⟩

/-- `os.path.basename`: the component after the last slash. -/
def basename (p : String) : String :=
  ⟨(p.data.reverse.takeWhile (fun c => c ≠ '/')).reverse⟩

/-- `os.path.join` for a relative second component. -/
def joinPath (a b : String) : String :=
  if a.data.getLast? = some '/' then a ++ b else a ++ "/" ++ b

/-- `os.path.abspath` relative to a working directory. -/
def abspath (cwd rel : String) : String :=
  if rel.data.head? = some '/' then rel else joinPath cwd rel

/-- First line of a file's content (up to the first newline). -/
def firstLine (s : String) : String :=
  ⟨s.data.takeWhile (fun c => c ≠ '\n')⟩

/-- `clear_tmp`, per-entry body: `os.unlink` for files and symlinks,
`shutil.rmtree` for directories, nothing for other entries.  Returns
whether a deletion was attempted; a failed deletion is an `OSError`. -/
def deleteEntry (w : World) (p : String) : Except PyError Bool :=
  if w.isFile p || w.isLink p then
    if w.removeOk p then .ok true else .error (.osError p)
  else if w.isDir p then
    if w.removeOk p then .ok true else .error (.osError p)
  else .ok false

/-- `clear_tmp` (lines 10-23): iterate the entries directly under `/tmp`;
try to delete each; a per-entry exception is caught (printed) and the
sweep continues.  The returned list records, per entry, its path and
whether a deletion was attempted (the `match` is the `try`/`except`). -/
def clear_tmp (w : World) : Except PyError (List (String × Bool)) :=
  .ok (w.listTmp.map fun filename =>
    let file_path := joinPath "/tmp" filename
    match deleteEntry w file_path with
    | .ok attempted => (file_path, attempted)
    | .error _ => (file_path, true))

/-- `run_command` (lines 26-37): run a shell command; with `check` a
non-zero exit raises `CalledProcessError` (caught, printed, re-raised
carrying the command and stderr); without `check` the completed result is
returned regardless of the exit code. -/
def run_command (w : World) (tag : Tag) (command : String) (check : Bool)
    (env : Option (List (String × String))) (st : St) :
    Except PyError Completed × St :=
  let st := { st with log := st.log ++ [(tag, command)] }
  let code := w.exitCode command
  if check && !(code == 0) then
    (.error (.calledProcessError command (w.stderrOf command) code), st)
  else
    (.ok ⟨code, w.stdoutOf command, w.stderrOf command⟩, st)

/-- The `scrub.py` command built by `add_protomers` (line 65). -/
def scrubCommand (smiles_string output_path : String) : String :=
  "micromamba run -n dwa_env scrub.py \"" ++ smiles_string ++ "\" -o " ++
    output_path ++ " --skip_tautomers --ph_low 5 --ph_high 9"

/-- `add_protomers` (lines 51-67): read the SMILES string from the ligand
file (a read failure is wrapped in a `RuntimeError`), run `scrub.py` on
it, return the fixed output path. -/
def add_protomers (w : World) (ligand : String) (st : St) :
    Except PyError String × St :=
  let output_path := "/tmp/ligand_with_protomers.sdf"
  match w.readFile ligand with
  | none => (.error (.runtimeError ("Failed to read SMILES file " ++ ligand)), st)
  | some content =>
      let smiles_string := pyStrip content
      match run_command w .ligand (scrubCommand smiles_string output_path) true none st with
      | (.error e, st) => (.error e, st)
      | (.ok _, st) => (.ok output_path, st)

/-- The `mk_prepare_ligand.py` command built by `prepare_ligand` (line 47). -/
def mkPrepareLigandCommand (ligand_with_protomers output_path : String) : String :=
  "micromamba run -n dwa_env mk_prepare_ligand.py -i " ++ ligand_with_protomers ++
    " --multimol_outdir " ++ output_path

/-- `prepare_ligand` (lines 40-48): generate protomers, run the ligand
preparation tool into the fixed output directory, and return the index-0
output file. -/
def prepare_ligand (w : World) (ligand : String) (st : St) :
    Except PyError String × St :=
  let output_path := "/tmp/ligand_protomers"
  match add_protomers w ligand st with
  | (.error e, st) => (.error e, st)
  | (.ok ligand_with_protomers, st) =>
      match run_command w .ligand (mkPrepareLigandCommand ligand_with_protomers output_path) true none st with
      | (.error e, st) => (.error e, st)
      | (.ok _, st) => (.ok (output_path ++ "/_i0.pdbqt"), st)

/-- The prody here-document command built by `extract_receptor_atoms`
(lines 100-108). -/
def prodyCommand (receptor output_path : String) : String :=
  "micromamba run -n dwa_env python3 - <<EOF\n" ++
  "from prody import parsePDB, writePDB\n" ++
  "pdb_token = \x27" ++ receptor ++ "\x27\n" ++
  "atoms_from_pdb = parsePDB(pdb_token)\n" ++
  "receptor_selection = \x27chain A and not water and not hetero\x27\n" ++
  "receptor_atoms = atoms_from_pdb.select(receptor_selection)\n" ++
  "writePDB(\x27" ++ output_path ++ "\x27, receptor_atoms)\nEOF\n"

/-- `extract_receptor_atoms` (lines 95-110). -/
def extract_receptor_atoms (w : World) (receptor : String) (st : St) :
    Except PyError String × St :=
  let output_path := "/tmp/receptor_atoms.pdb"
  match run_command w .receptor (prodyCommand receptor output_path) true none st with
  | (.error e, st) => (.error e, st)
  | (.ok _, st) => (.ok output_path, st)

/-- Content written by `extract_and_combine_cryst1` (lines 120-123): the
stripped grep output plus a newline when non-empty, then the
atom-extracted file's content verbatim. -/
def combineContent (cryst1_line atoms : String) : String :=
  (if cryst1_line ≠ "" then cryst1_line ++ "\n" else "") ++ atoms

/-- Substring containment (what `grep` matches for a pattern with no
regex metacharacters). -/
def strContains (l pat : String) : Bool :=
  l.data.tails.any fun t => pat.data.isPrefixOf t

/-- Stdout of `grep "CRYST1" file`: every line containing the fixed
pattern, each followed by its newline. -/
def grepStdout (pat : String) (lines : List String) : String :=
  String.join ((lines.filter fun l => strContains l pat).map fun l => l ++ "\n")

/-- Content-level model of `extract_and_combine_cryst1` (lines 113-125):
the raw receptor file given as its list of lines, the atom-extracted file
as its content; result is the merged output file's content.  The grep runs
with `check=False`, so an absent match yields empty stdout, not an error. -/
def mergedOutput (rawLines : List String) (atoms : String) : String :=
  combineContent (pyStrip (grepStdout "CRYST1" rawLines)) atoms

/-- `extract_and_combine_cryst1` (lines 113-125), pipeline view: run the
grep probe (`check=False`), read the atom-extracted file (an unreadable
file raises), write the merged file to the fixed path. -/
def extract_and_combine_cryst1 (w : World) (receptor receptor_atoms : String) (st : St) :
    Except PyError String × St :=
  let output_path := "/tmp/receptor_cryst1.pdb"
  match run_command w .receptor ("grep \"CRYST1\" " ++ receptor) false none st with
  | (.error e, st) => (.error e, st)
  | (.ok result, st) =>
      let _cryst1_line := pyStrip result.stdout
      match w.readFile receptor_atoms with
      | none => (.error (.osError receptor_atoms), st)
      | some _atoms => (.ok output_path, st)

/-- The `reduce2.py` command built by `add_hydrogens_and_optimize`
(lines 151-154). -/
def reduceCommand (reduce2_path receptor_cryst1 : String) : String :=
  "micromamba run -n dwa_env python3 " ++ reduce2_path ++ " " ++
    receptor_cryst1 ++ " approach=add add_flip_movers=True"

/-- `add_hydrogens_and_optimize` (lines 128-161): save the current
directory, change to `/tmp/`, run `reduce2.py` with the monomer-library
environment override, then change back.  The restore is sequential code,
not a `finally` block: it only runs when the command succeeded. -/
def add_hydrogens_and_optimize (w : World) (receptor_cryst1 : String) (st : St) :
    Except PyError String × St :=
  let output_path := "/tmp/receptor_cryst1FH.pdb"
  let micromamba_path := "/opt/conda/envs/dwa_env/lib/python3.11/site-packages"
  let reduce2_path := joinPath (joinPath (joinPath micromamba_path "mmtbx") "command_line") "reduce2.py"
  let geostd_path := abspath st.cwd "geostd"
  let env := w.environ ++ [("MMTBX_CCP4_MONOMER_LIB", geostd_path)]
  let current_dir := st.cwd
  let st1 := { st with cwd := "/tmp/" }
  match run_command w .receptor (reduceCommand reduce2_path receptor_cryst1) true (some env) st1 with
  | (.error e, st) => (.error e, st)
  | (.ok _, st) => (.ok output_path, { st with cwd := current_dir })

/-- The `mk_prepare_receptor.py` command built by `prepare_receptor`
(line 90). -/
def mkPrepareReceptorCommand (receptor_cryst1FH intermediate_path box : String) : String :=
  "micromamba run -n dwa_env mk_prepare_receptor.py --read_pdb " ++ receptor_cryst1FH ++
    " -o " ++ intermediate_path ++ " -p -v --box_enveloping " ++ box ++ " --padding 5"

/-- `prepare_receptor` (lines 70-92): four ordered sub-steps; returns the
hydrogenated intermediate and the final prepared-receptor path. -/
def prepare_receptor (w : World) (receptor box : String) (st : St) :
    Except PyError (String × String) × St :=
  let intermediate_path := "/tmp/receptor_prepared"
  let output_path := intermediate_path ++ ".pdbqt"
  match extract_receptor_atoms w receptor st with
  | (.error e, st) => (.error e, st)
  | (.ok receptor_atoms, st) =>
      match extract_and_combine_cryst1 w receptor receptor_atoms st with
      | (.error e, st) => (.error e, st)
      | (.ok receptor_cryst1, st) =>
          match add_hydrogens_and_optimize w receptor_cryst1 st with
          | (.error e, st) => (.error e, st)
          | (.ok receptor_cryst1FH, st) =>
              match run_command w .receptor (mkPrepareReceptorCommand receptor_cryst1FH intermediate_path box) true none st with
              | (.error e, st) => (.error e, st)
              | (.ok _, st) => (.ok (receptor_cryst1FH, output_path), st)

/-- The box-configuration path hardcoded in `run_docking` (line 170). -/
def config_txt : String := "/tmp/receptor_prepared.box.txt"

/-- The `vina` command built by `run_docking` (line 171). -/
def vinaCommand (ligand_prepared receptor_prepared cfg out : String) : String :=
  "micromamba run -n dwa_env vina --ligand " ++ ligand_prepared ++
    " --receptor " ++ receptor_prepared ++ " --config " ++ cfg ++ " --out " ++ out

/-- `run_docking` (lines 164-172). -/
def run_docking (w : World) (ligand_prepared receptor_prepared : String) (st : St) :
    Except PyError String × St :=
  let output_path := "/tmp/docking.pdbqt"
  match run_command w .docking (vinaCommand ligand_prepared receptor_prepared config_txt output_path) true none st with
  | (.error e, st) => (.error e, st)
  | (.ok _, st) => (.ok output_path, st)

/-- `export_pose` (lines 175-182). -/
def export_pose (w : World) (docking : String) (st : St) :
    Except PyError String × St :=
  let output_path := "/tmp/pose.sdf"
  match run_command w .poseExport ("micromamba run -n dwa_env mk_export.py " ++ docking ++ " -s " ++ output_path) true none st with
  | (.error e, st) => (.error e, st)
  | (.ok _, st) => (.ok output_path, st)

/-- `retrieve_gcs_files` (lines 185-197). -/
def retrieve_gcs_files (w : World) (remote_paths : List String) : List String :=
  remote_paths.map w.download

/-- The job result dictionary: `status`, `outputs`, and the
`failed_files` key that is present only on partial success. -/
structure JobResult where
  status : String
  outputs : List String
  failed_files : Option (List String)
  deriving DecidableEq, Repr

/-- The publish loop of `run_job` (lines 236-244): per upload record, if
the local file exists attempt the upload and record the logical filename
as a success or a failure; a missing file records a failure.  Returns
(`success_files`, `failed_files`) in iteration order. -/
def uploadLoop (w : World) (dirname : String) :
    List (String × String) → List String × List String
  | [] => ([], [])
  | (local_path, filename) :: rest =>
      let (succ, fail) := uploadLoop w dirname rest
      if w.pathExists local_path then
        if w.uploadOk local_path dirname filename then (filename :: succ, fail)
        else (succ, filename :: fail)
      else (succ, filename :: fail)

/-- Body of `run_job`'s `try` block (lines 204-252). -/
def run_job_body (w : World) (ligand receptor box dirname : String) (st : St) :
    Except PyError JobResult × St :=
  match clear_tmp w with
  | .error e => (.error e, st)
  | .ok _ =>
      let local_paths := retrieve_gcs_files w [ligand, receptor, box]
      let ligand_local := local_paths.getD 0 ""
      let receptor_local := local_paths.getD 1 ""
      let box_local := local_paths.getD 2 ""
      match prepare_ligand w ligand_local st with
      | (.error e, st) => (.error e, st)
      | (.ok ligand_prepared, st) =>
          match prepare_receptor w receptor_local box_local st with
          | (.error e, st) => (.error e, st)
          | (.ok target_receptor_prepared, st) =>
              let target := target_receptor_prepared.1
              let receptor_prepared := target_receptor_prepared.2
              match run_docking w ligand_prepared receptor_prepared st with
              | (.error e, st) => (.error e, st)
              | (.ok docking, st) =>
                  match export_pose w docking st with
                  | (.error e, st) => (.error e, st)
                  | (.ok pose, st) =>
                      let files_to_upload :=
                        [(docking, basename docking),
                         (pose, basename pose),
                         (target, basename target)]
                      let sf := uploadLoop w dirname files_to_upload
                      if sf.2 ≠ [] then
                        (.ok ⟨"partial_success", sf.1, some sf.2⟩, st)
                      else
                        (.ok ⟨"success", sf.1, none⟩, st)

/-- `run_job` (lines 200-254): the body, with any exception wrapped into a
generic workflow-failure `RuntimeError` (line 254). -/
def run_job (w : World) (ligand receptor box dirname : String) (st : St) :
    Except PyError JobResult × St :=
  match run_job_body w ligand receptor box dirname st with
  | (.error e, st) => (.error (.runtimeError ("Workflow failed: " ++ e.msg)), st)
  | (.ok r, st) => (.ok r, st)

/-- The three deliverables of the publish step: local path and logical
filename (`os.path.basename`). -/
def deliverables : List (String × String) :=
  [("/tmp/docking.pdbqt", "docking.pdbqt"),
   ("/tmp/pose.sdf", "pose.sdf"),
   ("/tmp/receptor_cryst1FH.pdb", "receptor_cryst1FH.pdb")]

/-- The three logical deliverable filenames. -/
def deliverableNames : List String :=
  ["docking.pdbqt", "pose.sdf", "receptor_cryst1FH.pdb"]

/-- Modelled from the spec: the docking-box configuration path convention,
"`X.pdbqt` prepared receptor ⇒ config at `X.box.txt`" — replace the
`.pdbqt` suffix of the prepared-receptor path with `.box.txt`.  Stated
from the spec's words for comparison with the code's `config_txt`. -/
def specBoxConfigPath (prepared : String) : String :=
  (⟨prepared.data.take (prepared.data.length - ".pdbqt".data.length)⟩ : String) ++ ".box.txt"

/-- A world where every external operation succeeds. -/
def wOK : World where
  exitCode := fun _ => 0
  stdoutOf := fun _ => "out"
  stderrOf := fun _ => "err"
  readFile := fun _ => some "CCO"
  download := id
  uploadOk := fun _ _ _ => true
  pathExists := fun _ => true
  listTmp := []
  isFile := fun _ => true
  isLink := fun _ => false
  isDir := fun _ => false
  removeOk := fun _ => true
  environ := []

/-- A world where every shell command exits non-zero. -/
def wFail : World := { wOK with exitCode := fun _ => 1 }

/-- A world where the docking output file is missing at publish time. -/
def wMissing : World := { wOK with pathExists := fun p => !(p == "/tmp/docking.pdbqt") }

/-- A world with two scratch entries: a file that deletes fine and a
directory whose removal fails. -/
def wSweep : World :=
  { wOK with
    listTmp := ["a", "b"]
    isFile := fun p => p == "/tmp/a"
    isLink := fun _ => false
    isDir := fun p => p == "/tmp/b"
    removeOk := fun p => !(p == "/tmp/b") }

/-! ## Basic lemmas about the command runner and the stages -/

theorem run_command_snd (w : World) (tag : Tag) (cmd : String) (check : Bool)
    (env : Option (List (String × String))) (st : St) :
    (run_command w tag cmd check env st).2 = { st with log := st.log ++ [(tag, cmd)] } := by
  simp only [run_command]
  split <;> rfl

theorem run_command_cwd (w : World) (tag : Tag) (cmd : String) (check : Bool)
    (env : Option (List (String × String))) (st : St) :
    ((run_command w tag cmd check env st).2).cwd = st.cwd := by
  rw [run_command_snd]

theorem prepare_ligand_ok_path (w : World) (a : String) (st : St) (p : String) (st' : St)
    (h : prepare_ligand w a st = (.ok p, st')) :
    p = "/tmp/ligand_protomers/_i0.pdbqt" := by
  simp only [prepare_ligand] at h
  split at h
  · simp_all
  · split at h <;> simp_all

theorem prepare_receptor_ok_paths (w : World) (a b : String) (st : St)
    (pr : String × String) (st' : St)
    (h : prepare_receptor w a b st = (.ok pr, st')) :
    pr = ("/tmp/receptor_cryst1FH.pdb", "/tmp/receptor_prepared.pdbqt") := by
  simp only [prepare_receptor] at h
  split at h
  · simp_all
  · split at h
    · simp_all
    · split at h
      · simp_all
      · rename_i receptor_cryst1FH st₃ heq₃
        have hFH : receptor_cryst1FH = "/tmp/receptor_cryst1FH.pdb" := by
          simp only [add_hydrogens_and_optimize] at heq₃
          split at heq₃ <;> simp_all
        split at h <;> simp_all

theorem run_docking_ok_path (w : World) (a b : String) (st : St) (p : String) (st' : St)
    (h : run_docking w a b st = (.ok p, st')) :
    p = "/tmp/docking.pdbqt" := by
  simp only [run_docking] at h
  split at h <;> simp_all

theorem export_pose_ok_path (w : World) (a : String) (st : St) (p : String) (st' : St)
    (h : export_pose w a st = (.ok p, st')) :
    p = "/tmp/pose.sdf" := by
  simp only [export_pose] at h
  split at h <;> simp_all

theorem run_command_log (w : World) (tag : Tag) (cmd : String) (check : Bool)
    (env : Option (List (String × String))) (st : St) :
    ((run_command w tag cmd check env st).2).log = st.log ++ [(tag, cmd)] := by
  rw [run_command_snd]

/-- Every shell command issued by `prepare_ligand` carries the ligand
stage tag: the log only grows by ligand-tagged entries. -/
theorem prepare_ligand_log (w : World) (a : String) (st : St) :
    ∃ t, ((prepare_ligand w a st).2).log = st.log ++ t ∧ ∀ q ∈ t, q.1 = Tag.ligand := by
  simp only [prepare_ligand, add_protomers]
  cases hrf : w.readFile a with
  | none => exact ⟨[], by simp, by simp⟩
  | some content =>
      dsimp only
      rcases hA : run_command w Tag.ligand
          (scrubCommand (pyStrip content) "/tmp/ligand_with_protomers.sdf") true none st
        with ⟨rA, stA⟩
      have hstA : stA.log = st.log ++
          [(Tag.ligand, scrubCommand (pyStrip content) "/tmp/ligand_with_protomers.sdf")] := by
        have h2 := run_command_log w Tag.ligand
          (scrubCommand (pyStrip content) "/tmp/ligand_with_protomers.sdf") true none st
        rw [hA] at h2
        exact h2
      cases rA with
      | error e =>
          exact ⟨_, hstA, by simp⟩
      | ok c =>
          dsimp only
          rcases hB : run_command w Tag.ligand
              (mkPrepareLigandCommand "/tmp/ligand_with_protomers.sdf" "/tmp/ligand_protomers")
              true none stA
            with ⟨rB, stB⟩
          have hstB : stB.log = stA.log ++
              [(Tag.ligand, mkPrepareLigandCommand "/tmp/ligand_with_protomers.sdf" "/tmp/ligand_protomers")] := by
            have h2 := run_command_log w Tag.ligand
              (mkPrepareLigandCommand "/tmp/ligand_with_protomers.sdf" "/tmp/ligand_protomers")
              true none stA
            rw [hB] at h2
            exact h2
          cases rB with
          | error e => exact ⟨_, by rw [hstB, hstA, List.append_assoc], by simp⟩
          | ok c₂ => exact ⟨_, by rw [hstB, hstA, List.append_assoc], by simp⟩

/-! ## The publish loop -/

/-- The two lists produced by the publish loop are, together, a
permutation of the logical filenames of the records fed to it. -/
theorem uploadLoop_perm (w : World) (d : String) (pairs : List (String × String)) :
    ((uploadLoop w d pairs).1 ++ (uploadLoop w d pairs).2).Perm (pairs.map Prod.snd) := by
  induction pairs with
  | nil => simp [uploadLoop]
  | cons hd tl ih =>
      obtain ⟨lp, fn⟩ := hd
      simp only [uploadLoop, List.map_cons]
      rcases hU : uploadLoop w d tl with ⟨succ, fail⟩
      rw [hU] at ih
      dsimp only at ih ⊢
      by_cases hPE : w.pathExists lp = true
      · by_cases hUp : w.uploadOk lp d fn = true
        · simpa [hPE, hUp] using ih.cons fn
        · simpa [hPE, hUp] using (List.perm_middle).trans (ih.cons fn)
      · simpa [hPE] using (List.perm_middle).trans (ih.cons fn)

/-- A record whose file is missing, or whose upload returns false, puts
its logical filename into the failed list. -/
theorem uploadLoop_mem_failed (w : World) (d : String) (pairs : List (String × String))
    (lp fn : String) (hmem : (lp, fn) ∈ pairs)
    (hcond : w.pathExists lp = false ∨ w.uploadOk lp d fn = false) :
    fn ∈ (uploadLoop w d pairs).2 := by
  induction pairs with
  | nil => simp at hmem
  | cons hd tl ih =>
      obtain ⟨lp', fn'⟩ := hd
      simp only [uploadLoop]
      rcases hU : uploadLoop w d tl with ⟨succ, fail⟩
      dsimp only
      rcases List.mem_cons.mp hmem with heq | htl
      · injection heq with h1 h2
        subst h1; subst h2
        rcases hcond with hc | hc
        · simp [hc]
        · by_cases hPE : w.pathExists lp = true <;> simp [hPE, hc]
      · have hin : fn ∈ fail := by
          have h2 := ih htl
          rw [hU] at h2
          exact h2
        by_cases hPE : w.pathExists lp' = true <;>
          by_cases hUp : w.uploadOk lp' d fn' = true <;>
            simp [hPE, hUp, hin]

/-- Every record's logical filename lands in one of the two lists. -/
theorem uploadLoop_mem_total (w : World) (d : String) (pairs : List (String × String))
    (lp fn : String) (hmem : (lp, fn) ∈ pairs) :
    fn ∈ (uploadLoop w d pairs).1 ∨ fn ∈ (uploadLoop w d pairs).2 := by
  have hmap : fn ∈ pairs.map Prod.snd := List.mem_map_of_mem Prod.snd hmem
  have := (uploadLoop_perm w d pairs).mem_iff.mpr hmap
  exact List.mem_append.mp this

/-- Whenever `run_job` returns a result object, that result is exactly
the outcome of the publish loop over the three fixed deliverables:
`partial_success` with the failed list attached when some deliverable
failed, plain `success` otherwise. -/
theorem run_job_ok_shape (w : World) (l r b d : String) (st : St) (res : JobResult) (st' : St)
    (h : run_job w l r b d st = (.ok res, st')) :
    res = (if (uploadLoop w d deliverables).2 ≠ [] then
             (⟨"partial_success", (uploadLoop w d deliverables).1,
               some ((uploadLoop w d deliverables).2)⟩ : JobResult)
           else ⟨"success", (uploadLoop w d deliverables).1, none⟩) := by
  simp only [run_job] at h
  split at h
  · simp_all
  · rename_i r₀ st₁ heq
    rw [Prod.mk.injEq] at h
    obtain ⟨hok, _⟩ := h
    injection hok with hok
    subst hok
    simp only [run_job_body, clear_tmp, retrieve_gcs_files, List.map_cons, List.map_nil,
      List.getD_cons_zero, List.getD_cons_succ] at heq
    split at heq
    · simp_all
    · rename_i lig_prep stA hPL
      split at heq
      · simp_all
      · rename_i tgt_rp stB hPR
        have hpr := prepare_receptor_ok_paths w (w.download r) (w.download b) stA tgt_rp stB hPR
        subst hpr
        split at heq
        · simp_all
        · rename_i dock stC hD
          have hdock := run_docking_ok_path w lig_prep _ stB dock stC hD
          subst hdock
          split at heq
          · simp_all
          · rename_i pose stD hE
            have hpose := export_pose_ok_path w _ stC pose stD hE
            subst hpose
            dsimp only at heq
            have hfiles : [("/tmp/docking.pdbqt", basename "/tmp/docking.pdbqt"),
                ("/tmp/pose.sdf", basename "/tmp/pose.sdf"),
                ("/tmp/receptor_cryst1FH.pdb", basename "/tmp/receptor_cryst1FH.pdb")] =
                deliverables := by decide
            rw [hfiles] at heq
            split at heq
            · rename_i hcond
              rw [if_pos hcond]
              rw [Prod.mk.injEq] at heq
              obtain ⟨h1, _⟩ := heq
              injection h1 with h1
              exact h1.symm
            · rename_i hcond
              rw [if_neg hcond]
              rw [Prod.mk.injEq] at heq
              obtain ⟨h1, _⟩ := heq
              injection h1 with h1
              exact h1.symm

/-! ## String lemmas for the crystallographic-record merge -/

theorem data_append_str (a b : String) : (a ++ b).data = a.data ++ b.data := rfl

theorem empty_append_str (s : String) : "" ++ s = s := rfl

/-- A string fixed by `pyStrip` starts with a non-whitespace character
(when non-empty) and its `dropWhile` from the left is the identity. -/
theorem pyStrip_fix_left {l : String} (h : pyStrip l = l) :
    l.data.dropWhile isPySpace = l.data := by
  have hd : ((l.data.dropWhile isPySpace).reverse.dropWhile isPySpace).reverse = l.data :=
    congrArg String.data h
  have hlen := congrArg List.length hd
  simp only [List.length_reverse] at hlen
  have h1 : ((l.data.dropWhile isPySpace).reverse.dropWhile isPySpace).length ≤
      (l.data.dropWhile isPySpace).length := by
    have hsub : List.Sublist ((l.data.dropWhile isPySpace).reverse.dropWhile isPySpace)
        ((l.data.dropWhile isPySpace).reverse) := List.dropWhile_sublist isPySpace
    have hs := hsub.length_le
    rwa [List.length_reverse] at hs
  have h2 : (l.data.dropWhile isPySpace).length ≤ l.data.length :=
    (List.dropWhile_sublist isPySpace).length_le
  exact (List.dropWhile_sublist isPySpace).eq_of_length (by omega)

theorem pyStrip_fix_right {l : String} (h : pyStrip l = l) :
    l.data.reverse.dropWhile isPySpace = l.data.reverse := by
  have hd : ((l.data.dropWhile isPySpace).reverse.dropWhile isPySpace).reverse = l.data :=
    congrArg String.data h
  rw [pyStrip_fix_left h] at hd
  have h3 := congrArg List.reverse hd
  rw [List.reverse_reverse] at h3
  exact h3

theorem not_space_of_dropWhile_fix {a : Char} {t : List Char}
    (h : (a :: t).dropWhile isPySpace = a :: t) : ¬ isPySpace a = true := by
  intro hpa
  rw [List.dropWhile_cons_of_pos hpa] at h
  have := (List.dropWhile_sublist isPySpace (l := t)).length_le
  have := congrArg List.length h
  simp at this
  omega

/-- Stripping `line ++ "\n"` gives back a line already fixed by the
strip. -/
theorem pyStrip_append_newline {l : String} (hfix : pyStrip l = l) (hne : l ≠ "") :
    pyStrip (l ++ "\n") = l := by
  have h1 := pyStrip_fix_left hfix
  have h2 := pyStrip_fix_right hfix
  obtain ⟨a, t, hat⟩ : ∃ a t, l.data = a :: t := by
    cases hl : l.data with
    | nil => exact absurd (String.ext hl) hne
    | cons a t => exact ⟨a, t, rfl⟩
  apply String.ext
  show ((((l ++ "\n").data.dropWhile isPySpace).reverse.dropWhile isPySpace)).reverse = l.data
  rw [data_append_str]
  have hna : ¬ isPySpace a = true := not_space_of_dropWhile_fix (hat ▸ h1)
  have hstep1 : (l.data ++ "\n".data).dropWhile isPySpace = l.data ++ "\n".data := by
    rw [hat, List.cons_append, List.dropWhile_cons_of_neg hna]
  rw [hstep1]
  have hstep2 : (l.data ++ "\n".data).reverse = '\n' :: l.data.reverse := by
    simp
  rw [hstep2, List.dropWhile_cons_of_pos (by decide : isPySpace '\n' = true), h2]
  simp

/-- `takeWhile (· ≠ newline)` of `d ++ newline :: rest` is `d` when `d`
contains no newline. -/
theorem takeWhile_until_newline (d rest : List Char) (h : '\n' ∉ d) :
    List.takeWhile (fun c => c ≠ '\n') (d ++ '\n' :: rest) = d := by
  induction d with
  | nil => simp
  | cons a t ih =>
      have ha : ¬ a = '\n' := fun hc => h (hc ▸ List.mem_cons_self a t)
      have hr := ih fun hc => h (List.mem_cons_of_mem a hc)
      simp only [List.cons_append, List.takeWhile_cons]
      simp only [ne_eq, decide_not] at hr ⊢
      simp [ha, hr]

/-! ## Claim theorems -/

/-- Claim C1, counterexample: the claim states the working directory is
restored whether the hydrogenation step completes or raises; in the world
where the `reduce2.py` invocation exits non-zero, a process that started
in `/home/user` is left in `/tmp/`, not `/home/user`. -/
theorem claim_C1_counterexample :
    ((add_hydrogens_and_optimize wFail "/tmp/receptor_cryst1.pdb" ⟨"/home/user", []⟩).2).cwd ≠
      "/home/user" := by decide

/-- Claim C1 (amended): after `add_hydrogens_and_optimize` completes
normally the working directory equals its value before the step; but when
the tool invocation raises, the restore is skipped (the `os.chdir` back is
sequential code, not a `finally`) and the working directory remains the
scratch root `/tmp/`. -/
theorem claim_C1_amended (w : World) (receptor_cryst1 : String) (st : St) :
    (∀ v st', add_hydrogens_and_optimize w receptor_cryst1 st = (.ok v, st') →
      st'.cwd = st.cwd)
    ∧ (∀ e st', add_hydrogens_and_optimize w receptor_cryst1 st = (.error e, st') →
      st'.cwd = "/tmp/") := by
  constructor
  · intro v st' h
    simp only [add_hydrogens_and_optimize] at h
    split at h
    · simp_all
    · rw [Prod.mk.injEq] at h
      obtain ⟨_, h2⟩ := h
      rw [← h2]
  · intro e st' h
    simp only [add_hydrogens_and_optimize] at h
    split at h
    · rename_i e₂ st₂ heq
      rw [Prod.mk.injEq] at h
      obtain ⟨_, h2⟩ := h
      have hc := run_command_cwd w Tag.receptor
        (reduceCommand
          (joinPath (joinPath (joinPath "/opt/conda/envs/dwa_env/lib/python3.11/site-packages" "mmtbx") "command_line") "reduce2.py")
          receptor_cryst1) true
        (some (w.environ ++ [("MMTBX_CCP4_MONOMER_LIB", abspath st.cwd "geostd")]))
        { st with cwd := "/tmp/" }
      rw [heq] at hc
      rw [← h2]
      exact hc
    · simp_all

/-- Claim C1 witness: in the all-success world the step returns normally
and the working directory is restored. -/
theorem claim_C1_witness :
    add_hydrogens_and_optimize wOK "/tmp/receptor_cryst1.pdb" ⟨"/home/user", []⟩ =
      (.ok "/tmp/receptor_cryst1FH.pdb",
        (add_hydrogens_and_optimize wOK "/tmp/receptor_cryst1.pdb" ⟨"/home/user", []⟩).2)
    ∧ ((add_hydrogens_and_optimize wOK "/tmp/receptor_cryst1.pdb" ⟨"/home/user", []⟩).2).cwd =
      "/home/user" := by
  refine ⟨by decide, ?_⟩
  exact (claim_C1_amended wOK "/tmp/receptor_cryst1.pdb" ⟨"/home/user", []⟩).1
    "/tmp/receptor_cryst1FH.pdb"
    ((add_hydrogens_and_optimize wOK "/tmp/receptor_cryst1.pdb" ⟨"/home/user", []⟩).2)
    (by decide)

/-- Claim C2, counterexample: the claim says the box-configuration path
used at docking time is the fixed transform of the prepared-receptor path
argument; for the receptor argument `/tmp/two.pdbqt` the command actually
issued is not the one using the transform `/tmp/two.box.txt`. -/
theorem claim_C2_counterexample :
    ((run_docking wOK "/tmp/lig.pdbqt" "/tmp/two.pdbqt" ⟨"/", []⟩).2).log ≠
      [(Tag.docking, vinaCommand "/tmp/lig.pdbqt" "/tmp/two.pdbqt"
        (specBoxConfigPath "/tmp/two.pdbqt") "/tmp/docking.pdbqt")] := by decide

/-- Claim C2 (amended): the config path used at docking time is the
hardcoded literal `config_txt` (`/tmp/receptor_prepared.box.txt`),
identical for every receptor argument; it is not a function of the path
argument.  The literal does equal the spec's fixed transform applied to
the one prepared-receptor path `prepare_receptor` actually returns. -/
theorem claim_C2_amended (w : World) (lig rec : String) (st : St) :
    ((run_docking w lig rec st).2).log =
      st.log ++ [(Tag.docking, vinaCommand lig rec config_txt "/tmp/docking.pdbqt")]
    ∧ config_txt = specBoxConfigPath "/tmp/receptor_prepared.pdbqt" := by
  constructor
  · simp only [run_docking]
    rcases hC : run_command w Tag.docking
        (vinaCommand lig rec config_txt "/tmp/docking.pdbqt") true none st with ⟨rc, stc⟩
    have hl := run_command_log w Tag.docking
      (vinaCommand lig rec config_txt "/tmp/docking.pdbqt") true none st
    rw [hC] at hl
    cases rc <;> simpa using hl
  · decide

/-- Claim C7: with fail-on-nonzero-exit true (the default) a non-zero
exit makes `run_command` raise a `CalledProcessError` carrying the command
text and the captured stderr; with it false the completed result is
returned to the caller regardless of the exit code. -/
theorem claim_C7 (w : World) (tag : Tag) (cmd : String)
    (env : Option (List (String × String))) (st : St) :
    (w.exitCode cmd ≠ 0 →
      (run_command w tag cmd true env st).1 =
        .error (.calledProcessError cmd (w.stderrOf cmd) (w.exitCode cmd)))
    ∧ (run_command w tag cmd false env st).1 =
        .ok ⟨w.exitCode cmd, w.stdoutOf cmd, w.stderrOf cmd⟩ := by
  constructor
  · intro hne
    simp [run_command, hne]
  · simp [run_command]

/-- Claim C7 witness: a command exiting 1 under the failing world raises
with the command text and stderr; the non-checking mode returns the
completed result. -/
theorem claim_C7_witness :
    (wFail.exitCode "cmd" ≠ 0 ∧
      (run_command wFail Tag.ligand "cmd" true none ⟨"/", []⟩).1 =
        .error (.calledProcessError "cmd" "err" 1))
    ∧ (run_command wFail Tag.ligand "cmd" false none ⟨"/", []⟩).1 = .ok ⟨1, "out", "err"⟩ := by
  refine ⟨⟨by decide, ?_⟩, ?_⟩
  · exact (claim_C7 wFail Tag.ligand "cmd" none ⟨"/", []⟩).1 (by decide)
  · exact (claim_C7 wFail Tag.ligand "cmd" none ⟨"/", []⟩).2

/-- Claim C9: each stage, whenever it returns, returns the fixed scratch
path(s): the index-0 prepared ligand, the hydrogenated receptor and
prepared receptor pair, the docking output, and the exported pose. -/
theorem claim_C9 (w : World) (a b : String) (st : St) :
    (∀ p st', prepare_ligand w a st = (.ok p, st') →
      p = "/tmp/ligand_protomers/_i0.pdbqt")
    ∧ (∀ pr st', prepare_receptor w a b st = (.ok pr, st') →
      pr = ("/tmp/receptor_cryst1FH.pdb", "/tmp/receptor_prepared.pdbqt"))
    ∧ (∀ p st', run_docking w a b st = (.ok p, st') → p = "/tmp/docking.pdbqt")
    ∧ (∀ p st', export_pose w a st = (.ok p, st') → p = "/tmp/pose.sdf") :=
  ⟨fun p st' h => prepare_ligand_ok_path w a st p st' h,
   fun pr st' h => prepare_receptor_ok_paths w a b st pr st' h,
   fun p st' h => run_docking_ok_path w a b st p st' h,
   fun p st' h => export_pose_ok_path w a st p st' h⟩

/-- Claim C9 witness: in the all-success world the four stages succeed
and the fixed paths are the ones returned. -/
theorem claim_C9_witness :
    prepare_ligand wOK "l" ⟨"/", []⟩ =
      (.ok "/tmp/ligand_protomers/_i0.pdbqt", (prepare_ligand wOK "l" ⟨"/", []⟩).2)
    ∧ "/tmp/ligand_protomers/_i0.pdbqt" = "/tmp/ligand_protomers/_i0.pdbqt" := by
  refine ⟨by decide, ?_⟩
  exact (claim_C9 wOK "l" "b" ⟨"/", []⟩).1 "/tmp/ligand_protomers/_i0.pdbqt"
    ((prepare_ligand wOK "l" ⟨"/", []⟩).2) (by decide)

/-- Claim C3: whenever `run_job` returns a result, a deliverable that is
missing from disk or whose upload returns false makes the status
`partial_success` and puts that logical filename into `failed_files`,
while every deliverable is still processed (it lands in one of the two
lists; the loop is not aborted). -/
theorem claim_C3 (w : World) (l r b d : String) (st : St) (res : JobResult) (st' : St)
    (h : run_job w l r b d st = (.ok res, st')) :
    ((w.pathExists "/tmp/docking.pdbqt" = false ∨
        w.uploadOk "/tmp/docking.pdbqt" d "docking.pdbqt" = false) →
      res.status = "partial_success" ∧ "docking.pdbqt" ∈ res.failed_files.getD [])
    ∧ ((w.pathExists "/tmp/pose.sdf" = false ∨
        w.uploadOk "/tmp/pose.sdf" d "pose.sdf" = false) →
      res.status = "partial_success" ∧ "pose.sdf" ∈ res.failed_files.getD [])
    ∧ ((w.pathExists "/tmp/receptor_cryst1FH.pdb" = false ∨
        w.uploadOk "/tmp/receptor_cryst1FH.pdb" d "receptor_cryst1FH.pdb" = false) →
      res.status = "partial_success" ∧ "receptor_cryst1FH.pdb" ∈ res.failed_files.getD [])
    ∧ (∀ n ∈ deliverableNames, n ∈ res.outputs ∨ n ∈ res.failed_files.getD []) := by
  have hshape := run_job_ok_shape w l r b d st res st' h
  have key : ∀ lp fn, (lp, fn) ∈ deliverables →
      (w.pathExists lp = false ∨ w.uploadOk lp d fn = false) →
      res.status = "partial_success" ∧ fn ∈ res.failed_files.getD [] := by
    intro lp fn hmem hcond
    have hf := uploadLoop_mem_failed w d deliverables lp fn hmem hcond
    have hne : (uploadLoop w d deliverables).2 ≠ [] := by
      intro h0
      rw [h0] at hf
      simp at hf
    rw [hshape, if_pos hne]
    exact ⟨rfl, by simpa using hf⟩
  refine ⟨key _ _ (by decide), key _ _ (by decide), key _ _ (by decide), ?_⟩
  intro n hn
  have hmapeq : deliverables.map Prod.snd = deliverableNames := by decide
  rw [← hmapeq] at hn
  obtain ⟨pair, hpair, hsnd⟩ := List.mem_map.mp hn
  obtain ⟨lp, fn⟩ := pair
  subst hsnd
  have htot := uploadLoop_mem_total w d deliverables lp fn hpair
  by_cases hne : (uploadLoop w d deliverables).2 ≠ []
  · rw [hshape, if_pos hne]
    simpa using htot
  · rw [hshape, if_neg hne]
    have hemp : (uploadLoop w d deliverables).2 = [] := not_not.mp hne
    rcases htot with hs | hf
    · left
      simpa using hs
    · rw [hemp] at hf
      simp at hf

/-- Claim C3 witness: in the world where the docking output file is
missing, the job result is a partial success listing `docking.pdbqt` as
failed. -/
theorem claim_C3_witness :
    wMissing.pathExists "/tmp/docking.pdbqt" = false
    ∧ (JobResult.mk "partial_success" ["pose.sdf", "receptor_cryst1FH.pdb"]
        (some ["docking.pdbqt"])).status = "partial_success"
    ∧ "docking.pdbqt" ∈ (JobResult.mk "partial_success" ["pose.sdf", "receptor_cryst1FH.pdb"]
        (some ["docking.pdbqt"])).failed_files.getD [] := by
  refine ⟨by decide, ?_, ?_⟩
  · exact ((claim_C3 wMissing "l" "r" "b" "d" ⟨"/", []⟩
      (JobResult.mk "partial_success" ["pose.sdf", "receptor_cryst1FH.pdb"]
        (some ["docking.pdbqt"]))
      ((run_job wMissing "l" "r" "b" "d" ⟨"/", []⟩).2) (by decide)).1 (Or.inl (by decide))).1
  · exact ((claim_C3 wMissing "l" "r" "b" "d" ⟨"/", []⟩
      (JobResult.mk "partial_success" ["pose.sdf", "receptor_cryst1FH.pdb"]
        (some ["docking.pdbqt"]))
      ((run_job wMissing "l" "r" "b" "d" ⟨"/", []⟩).2) (by decide)).1 (Or.inl (by decide))).2

/-- Claim C4: whenever `run_job` returns a result and all three
deliverables exist on disk and every upload returns true, the result is
exactly `success` with the three logical filenames as outputs and no
`failed_files` entry. -/
theorem claim_C4 (w : World) (l r b d : String) (st : St) (res : JobResult) (st' : St)
    (h : run_job w l r b d st = (.ok res, st'))
    (h1 : w.pathExists "/tmp/docking.pdbqt" = true)
    (h2 : w.pathExists "/tmp/pose.sdf" = true)
    (h3 : w.pathExists "/tmp/receptor_cryst1FH.pdb" = true)
    (h4 : w.uploadOk "/tmp/docking.pdbqt" d "docking.pdbqt" = true)
    (h5 : w.uploadOk "/tmp/pose.sdf" d "pose.sdf" = true)
    (h6 : w.uploadOk "/tmp/receptor_cryst1FH.pdb" d "receptor_cryst1FH.pdb" = true) :
    res = ⟨"success", deliverableNames, none⟩ := by
  have hshape := run_job_ok_shape w l r b d st res st' h
  have hloop : uploadLoop w d deliverables = (deliverableNames, []) := by
    simp [uploadLoop, deliverables, deliverableNames, h1, h2, h3, h4, h5, h6]
  rw [hshape, hloop]
  simp

/-- Claim C4 witness: in the all-success world `run_job` returns the
success result with exactly the three logical filenames. -/
theorem claim_C4_witness :
    wOK.pathExists "/tmp/docking.pdbqt" = true
    ∧ run_job wOK "l" "r" "b" "d" ⟨"/", []⟩ =
        (.ok ⟨"success", deliverableNames, none⟩, (run_job wOK "l" "r" "b" "d" ⟨"/", []⟩).2)
    ∧ (⟨"success", deliverableNames, none⟩ : JobResult) = ⟨"success", deliverableNames, none⟩ := by
  refine ⟨by decide, by decide, ?_⟩
  exact claim_C4 wOK "l" "r" "b" "d" ⟨"/", []⟩ ⟨"success", deliverableNames, none⟩
    ((run_job wOK "l" "r" "b" "d" ⟨"/", []⟩).2) (by decide)
    (by decide) (by decide) (by decide) (by decide) (by decide) (by decide)

/-- Claim C10: whenever `run_job` returns a result, the outputs list and
the failed list together are a permutation of the three deliverable
basenames (so each is accounted for exactly once), and the two lists are
disjoint. -/
theorem claim_C10 (w : World) (l r b d : String) (st : St) (res : JobResult) (st' : St)
    (h : run_job w l r b d st = (.ok res, st')) :
    (res.outputs ++ res.failed_files.getD []).Perm deliverableNames
    ∧ ∀ n, n ∈ res.outputs → n ∉ res.failed_files.getD [] := by
  have hshape := run_job_ok_shape w l r b d st res st' h
  have hperm := uploadLoop_perm w d deliverables
  have hmapeq : deliverables.map Prod.snd = deliverableNames := by decide
  rw [hmapeq] at hperm
  have hnd : deliverableNames.Nodup := by decide
  have hnd2 := (hperm.nodup_iff).mpr hnd
  obtain ⟨-, -, hdisj⟩ := List.nodup_append.mp hnd2
  by_cases hne : (uploadLoop w d deliverables).2 ≠ []
  · rw [hshape, if_pos hne]
    exact ⟨by simpa using hperm, fun n hs hf => hdisj (by simpa using hs) (by simpa using hf)⟩
  · rw [hshape, if_neg hne]
    have hemp : (uploadLoop w d deliverables).2 = [] := not_not.mp hne
    rw [hemp] at hperm
    constructor
    · simpa using hperm
    · intro n hs hf
      simp at hf

/-- Claim C10 witness: in the all-success world all three deliverable
names are in the outputs list, none failed, the two lists partition the
deliverable names. -/
theorem claim_C10_witness :
    ((JobResult.mk "success" deliverableNames none).outputs ++
      (JobResult.mk "success" deliverableNames none).failed_files.getD []).Perm
      deliverableNames := by
  exact (claim_C10 wOK "l" "r" "b" "d" ⟨"/", []⟩ (JobResult.mk "success" deliverableNames none)
    ((run_job wOK "l" "r" "b" "d" ⟨"/", []⟩).2) (by decide)).1

/-- Claim C5: if the raw receptor file has exactly one line containing
the unit-cell record marker (a proper record line: no surrounding
whitespace, no embedded newline), the merged output starts with that
record as its first line; if no line contains the marker, the merged
output equals the atom-extracted file's content unchanged, with no blank
leading line. -/
theorem claim_C5 (rawLines : List String) (atoms l : String) :
    (rawLines.filter (fun x => strContains x "CRYST1") = [l] →
      pyStrip l = l → l ≠ "" → '\n' ∉ l.data →
      mergedOutput rawLines atoms = l ++ "\n" ++ atoms ∧
      firstLine (mergedOutput rawLines atoms) = l)
    ∧ (rawLines.filter (fun x => strContains x "CRYST1") = [] →
      mergedOutput rawLines atoms = atoms) := by
  constructor
  · intro hfilter hfix hne hnl
    have hstdout : grepStdout "CRYST1" rawLines = l ++ "\n" := by
      simp only [grepStdout, hfilter, List.map_cons, List.map_nil]
      simp [String.join]
    have hmerged : mergedOutput rawLines atoms = l ++ "\n" ++ atoms := by
      simp only [mergedOutput, hstdout, pyStrip_append_newline hfix hne, combineContent]
      rw [if_pos hne]
    refine ⟨hmerged, ?_⟩
    rw [hmerged]
    apply String.ext
    show List.takeWhile (fun c => c ≠ '\n') ((l ++ "\n" ++ atoms).data) = l.data
    rw [data_append_str, data_append_str]
    have hassoc : (l.data ++ "\n".data) ++ atoms.data = l.data ++ ('\n' :: atoms.data) := by
      simp
    rw [hassoc]
    exact takeWhile_until_newline l.data atoms.data hnl
  · intro hfilter
    have hstdout : grepStdout "CRYST1" rawLines = "" := by
      simp [grepStdout, hfilter, String.join]
    simp only [mergedOutput, hstdout]
    have hstrip : pyStrip "" = "" := rfl
    rw [hstrip]
    simp only [combineContent, ne_eq, not_true_eq_false, if_neg, ite_false]
    · exact empty_append_str atoms

/-- Claim C5 witness: a concrete raw file with one CRYST1 record yields a
merged file starting with that record; memberships and strip side
conditions hold by evaluation. -/
theorem claim_C5_witness :
    ["HEADER x", "CRYST1   1  2  3", "ATOM 1"].filter
        (fun x => strContains x "CRYST1") = ["CRYST1   1  2  3"]
    ∧ firstLine (mergedOutput ["HEADER x", "CRYST1   1  2  3", "ATOM 1"] "ATOM 1\nATOM 2\n") =
      "CRYST1   1  2  3" := by
  refine ⟨by decide, ?_⟩
  exact ((claim_C5 ["HEADER x", "CRYST1   1  2  3", "ATOM 1"] "ATOM 1\nATOM 2\n"
    "CRYST1   1  2  3").1 (by decide) (by decide) (by decide) (by decide)).2

/-- Claim C6: if ligand preparation raises (any of its tool invocations
exiting non-zero does that), `run_job` propagates a wrapped
workflow-failure error, returns no result object, and no receptor
preparation, docking, or export command was ever issued: every logged
command belongs to the ligand stage. -/
theorem claim_C6 (w : World) (ligand receptor box dirname cwd : String) (e : PyError)
    (h : (prepare_ligand w (w.download ligand) ⟨cwd, []⟩).1 = .error e) :
    (run_job w ligand receptor box dirname ⟨cwd, []⟩).1 =
      .error (.runtimeError ("Workflow failed: " ++ e.msg))
    ∧ ∀ q ∈ ((run_job w ligand receptor box dirname ⟨cwd, []⟩).2).log, q.1 = Tag.ligand := by
  obtain ⟨tail, htail, htag⟩ := prepare_ligand_log w (w.download ligand) ⟨cwd, []⟩
  simp only [run_job, run_job_body, clear_tmp, retrieve_gcs_files, List.map_cons, List.map_nil,
    List.getD_cons_zero, List.getD_cons_succ]
  rcases hP : prepare_ligand w (w.download ligand) ⟨cwd, []⟩ with ⟨rP, stP⟩
  rw [hP] at h htail
  dsimp only at h htail
  subst h
  dsimp only
  refine ⟨rfl, ?_⟩
  intro q hq
  rw [htail] at hq
  exact htag q (by simpa using hq)

/-- Claim C6 witness: in the failing world the scrub invocation exits 1,
ligand preparation raises, and the whole job fails with the wrapped
error. -/
theorem claim_C6_witness :
    (prepare_ligand wFail (wFail.download "lig") ⟨"/", []⟩).1 =
      .error (.calledProcessError
        (scrubCommand "CCO" "/tmp/ligand_with_protomers.sdf") "err" 1)
    ∧ (run_job wFail "lig" "r" "b" "d" ⟨"/", []⟩).1 =
      .error (.runtimeError ("Workflow failed: " ++
        (PyError.calledProcessError
          (scrubCommand "CCO" "/tmp/ligand_with_protomers.sdf") "err" 1).msg)) := by
  refine ⟨by decide, ?_⟩
  exact (claim_C6 wFail "lig" "r" "b" "d" "/"
    (.calledProcessError (scrubCommand "CCO" "/tmp/ligand_with_protomers.sdf") "err" 1)
    (by decide)).1

/-- Claim C8: the workspace sweep never raises, it visits every entry
directly under the scratch root, and for every entry that is a file,
symlink, or directory a deletion is attempted even when the removal
itself fails (the per-entry exception is caught and the sweep
continues). -/
theorem claim_C8 (w : World) :
    ∃ entries, clear_tmp w = .ok entries
      ∧ entries.map Prod.fst = w.listTmp.map (fun fn => joinPath "/tmp" fn)
      ∧ ∀ fn ∈ w.listTmp,
          (w.isFile (joinPath "/tmp" fn) || w.isLink (joinPath "/tmp" fn) ||
            w.isDir (joinPath "/tmp" fn)) = true →
          (joinPath "/tmp" fn, true) ∈ entries := by
  refine ⟨_, rfl, ?_, ?_⟩
  · rw [List.map_map]
    apply List.map_congr_left
    intro fn _
    dsimp only [Function.comp]
    cases hD : deleteEntry w (joinPath "/tmp" fn) with
    | ok a => rfl
    | error e => rfl
  · intro fn hfn hkind
    have hval : (fun filename =>
        let file_path := joinPath "/tmp" filename
        match deleteEntry w file_path with
        | .ok attempted => (file_path, attempted)
        | .error _ => (file_path, true)) fn = (joinPath "/tmp" fn, true) := by
      dsimp only
      cases hD : deleteEntry w (joinPath "/tmp" fn) with
      | ok a =>
          have ha : a = true := by
            simp only [deleteEntry] at hD
            by_cases h1 : (w.isFile (joinPath "/tmp" fn) || w.isLink (joinPath "/tmp" fn)) = true
            · rw [if_pos h1] at hD
              by_cases h2 : w.removeOk (joinPath "/tmp" fn) = true
              · rw [if_pos h2] at hD
                injection hD with hD
                exact hD.symm
              · rw [if_neg h2] at hD
                simp at hD
            · rw [if_neg h1] at hD
              by_cases h3 : w.isDir (joinPath "/tmp" fn) = true
              · rw [if_pos h3] at hD
                by_cases h2 : w.removeOk (joinPath "/tmp" fn) = true
                · rw [if_pos h2] at hD
                  injection hD with hD
                  exact hD.symm
                · rw [if_neg h2] at hD
                  simp at hD
              · exfalso
                rcases Bool.or_eq_true .. |>.mp hkind with hk | hk
                · exact h1 hk
                · exact h3 hk
          rw [ha]
      | error e => rfl
    have hmem := List.mem_map_of_mem (fun filename =>
        let file_path := joinPath "/tmp" filename
        match deleteEntry w file_path with
        | .ok attempted => (file_path, attempted)
        | .error _ => (file_path, true)) hfn
    rw [hval] at hmem
    exact hmem

/-- Claim C8 witness: a scratch root holding a deletable file and an
undeletable directory; the sweep returns normally, visits both, and the
directory's deletion was still attempted. -/
theorem claim_C8_witness :
    clear_tmp wSweep = .ok [("/tmp/a", true), ("/tmp/b", true)]
    ∧ ("/tmp/b", true) ∈ [("/tmp/a", true), ("/tmp/b", true)] := by
  obtain ⟨entries, h1, h2, h3⟩ := claim_C8 wSweep
  have hval : clear_tmp wSweep = .ok [("/tmp/a", true), ("/tmp/b", true)] := by decide
  have he : entries = [("/tmp/a", true), ("/tmp/b", true)] := by
    rw [hval] at h1
    injection h1 with h1
    exact h1.symm
  refine ⟨hval, ?_⟩
  have h4 := h3 "b" (by decide) (by decide)
  rw [he] at h4
  exact h4

end BasicDocking
